import Mathlib

/-!
A shallow embedding of the "Up Ahead" temporal-extraction and filtering
pipeline of this repository: `src/utils/dateExtractor.js` (the 5-layer date
extraction engine), the planner localStorage module, and
`src/services/upAheadService.js` (keyword filters, freshness gate, and the
aggregation into timeline / sections / weekly plan).

Modeling conventions:

* JS `Date` values are milliseconds since the Unix epoch (`Int`); the host
  timezone is taken to be UTC, so `setHours(0,0,0,0)` floors to a multiple
  of `dayMs`, and `toISOString().slice(0,10)` corresponds to the calendar
  day number `t / dayMs` (ISO `YYYY-MM-DD` keys are order-isomorphic to day
  numbers).  `new Date(y, m, d)` is `jsDate y m d`, proleptic Gregorian,
  with month/day overflow normalized exactly as in JS.
* Regular expressions are hand-compiled to scanners over `List Char` with
  JS semantics: leftmost match, alternatives tried in source order, greedy
  quantifiers with backtracking.  The `i` flag is modeled by ASCII
  lowercasing; `\w` (hence `\b`) is `[A-Za-z0-9_]`.
* The two floating-point comparisons in the source (`similarity > 0.7` and
  `diffDays < -3`) are modeled exactly over the integers by
  cross-multiplication.
-/

namespace UpAhead

/-- JS `\w` character class (ASCII range): letters, digits, underscore. -/
def isWordC (c : Char) : Bool := c.isAlphanum || c = '_'

/-- JS `\s`, restricted to the ASCII whitespace occurring in modeled texts. -/
def isWsC (c : Char) : Bool := c = ' ' || c = '\t' || c = '\n' || c = '\r'

def isDigitC (c : Char) : Bool := c.isDigit

/-- ASCII lowercasing: models `String.prototype.toLowerCase` and the regex
`i` flag for the ASCII texts handled by the pipeline. -/
def lowerChar (c : Char) : Char :=
  if 'A' ≤ c ∧ c ≤ 'Z' then Char.ofNat (c.toNat + 32) else c

def lowerS (s : String) : List Char := s.data.map lowerChar

def digitVal (c : Char) : Nat := c.toNat - 48

def natOfDigits (ds : List Char) : Nat := ds.foldl (fun a c => a * 10 + digitVal c) 0

/-- `String.prototype.includes` (substring containment). -/
def containsSub (hay pat : List Char) : Bool :=
  match hay with
  | [] => pat.isEmpty
  | _ :: rest => pat.isPrefixOf hay || containsSub rest pat

/-! ### Calendar arithmetic (`new Date(y, m, d)` and friends) -/

def dayMs : Int := 86400000
def hourMs : Int := 3600000

/-- Day number of a civil date (1970-01-01 = day 0), proleptic Gregorian,
month `m` in 1..12, `d` arbitrary (the formula is linear in `d`, which
reproduces JS day-of-month overflow).  `/` and `%` on `Int` with a positive
divisor are floor division / nonnegative remainder, as required. -/
def daysFromCivil (y m d : Int) : Int :=
  let y1 := if m ≤ 2 then y - 1 else y
  let era := y1 / 400
  let yoe := y1 - era * 400
  let mp := (m + 9) % 12
  let doy := (153 * mp + 2) / 5 + d - 1
  let doe := yoe * 365 + yoe / 4 - yoe / 100 + doy
  era * 146097 + doe - 719468

/-- Civil date of a day number: `(year, month 1..12, day 1..31)`. -/
def civilFromDays (z0 : Int) : Int × Int × Int :=
  let z := z0 + 719468
  let era := z / 146097
  let doe := z - era * 146097
  let yoe := (doe - doe / 1460 + doe / 36524 - doe / 146096) / 365
  let y := yoe + era * 400
  let doy := doe - (365 * yoe + yoe / 4 - yoe / 100)
  let mp := (5 * doy + 2) / 153
  let d := doy - (153 * mp + 2) / 5 + 1
  let m := if mp < 10 then mp + 3 else mp - 9
  (if m ≤ 2 then y + 1 else y, m, d)

/-- `new Date(y, monthIdx, d)` at (modeled-UTC) local midnight, in ms.
`monthIdx` is 0-based and may lie outside 0..11; JS rolls it into the year,
which floor division reproduces.  (The JS quirk mapping years 0..99 to
1900+y is outside the modeled input range.) -/
def jsDate (y monthIdx d : Int) : Int :=
  let ym := y * 12 + monthIdx
  daysFromCivil (ym / 12) (ym % 12 + 1) d * dayMs

/-- Calendar day number of a timestamp (`toISOString().slice(0,10)` up to
the order isomorphism between ISO day keys and day numbers). -/
def dayNumOf (t : Int) : Int := t / dayMs

/-- `getFullYear()`. -/
def yearOf (t : Int) : Int := (civilFromDays (dayNumOf t)).1

/-- `getDay()`: 0 = Sunday .. 6 = Saturday (1970-01-01 was a Thursday). -/
def weekdayOf (t : Int) : Int := (dayNumOf t + 4) % 7

/-- `d.setFullYear(d.getFullYear() + 1)`: same month/day-of-month and time
of day one year later (Feb 29 rolls to Mar 1 on non-leap years, as in JS). -/
def setFullYearPlus1 (t : Int) : Int :=
  let day := dayNumOf t
  let tod := t - day * dayMs
  let c := civilFromDays day
  daysFromCivil (c.1 + 1) c.2.1 c.2.2 * dayMs + tod

/-! ### dateExtractor.js — 5-layer date extraction engine -/

/-- `inferYear(month, day, ref)`: build the date in the reference year; if
it is more than 30 days in the past, push it to the next year. -/
def inferYear (month day : Int) (ref : Int) : Int :=
  let d := jsDate (yearOf ref) month day
  if d < ref ∧ ref - d > 30 * dayMs then setFullYearPlus1 d else d

/-- `{ start, end, type }` result of an extraction layer (`end` is a Lean
keyword, so the field is named `endOpt`). -/
structure DateResult where
  start : Int
  endOpt : Option Int
  type : String
deriving DecidableEq, Repr

/-- The keys of `MONTHS` in source order, with their month indices.  The
source builds the alternation from `Object.keys(MONTHS).filter(m => m.length > 2)`,
which keeps every key (all are at least 3 characters long). -/
def monthAlts : List (String × Nat) :=
  [("jan", 0), ("january", 0), ("feb", 1), ("february", 1),
   ("mar", 2), ("march", 2), ("apr", 3), ("april", 3), ("may", 4),
   ("jun", 5), ("june", 5), ("jul", 6), ("july", 6),
   ("aug", 7), ("august", 7), ("sep", 8), ("september", 8),
   ("oct", 9), ("october", 9), ("nov", 10), ("november", 10),
   ("dec", 11), ("december", 11)]

/-- `\b` before a word character: start of input or a non-word char. -/
def boundaryBefore : Option Char → Bool
  | none => true
  | some c => !isWordC c

/-- `\b` after a word character: end of input or a non-word char. -/
def boundaryAfter : List Char → Bool
  | [] => true
  | c :: _ => !isWordC c

/-- `\s+`, greedy (always followed by a non-whitespace token in the modeled
patterns, so maximal munch needs no backtracking). -/
def ws1 (cs : List Char) : Option (List Char) :=
  match cs with
  | c :: rest => if isWsC c then some (rest.dropWhile isWsC) else none
  | [] => none

/-- `\s*`, greedy (same remark as `ws1`). -/
def wsStar (cs : List Char) : List Char := cs.dropWhile isWsC

/-- Maximal digit run. -/
def digitSpan (cs : List Char) : List Char × List Char :=
  (cs.takeWhile isDigitC, cs.dropWhile isDigitC)

/-- `(\d{1,2})` followed by continuation `k`: greedy, backtracking from two
digits to one, exactly as the regex engine does. -/
def day12 (cs : List Char) (k : Nat → List Char → Option α) : Option α :=
  let s := digitSpan cs
  match s.1 with
  | [] => none
  | [d1] => k (digitVal d1) s.2
  | d1 :: d2 :: extra =>
      match k (digitVal d1 * 10 + digitVal d2) (extra ++ s.2) with
      | some r => some r
      | none => k (digitVal d1) (d2 :: (extra ++ s.2))

/-- The month-name alternation `(jan|january|...)` with continuation `k`:
the first alternative (in source order) whose continuation succeeds wins,
as with regex backtracking.  All alternatives matching at one position name
the same month, so the captured index is well defined. -/
def monthAltAux : List (String × Nat) → List Char → (Nat → List Char → Option α) → Option α
  | [], _, _ => none
  | (nm, idx) :: rest, cs, k =>
      match (if nm.data.isPrefixOf cs then k idx (cs.drop nm.data.length) else none) with
      | some r => some r
      | none => monthAltAux rest cs k

def monthAlt (cs : List Char) (k : Nat → List Char → Option α) : Option α :=
  monthAltAux monthAlts cs k

/-- Generic leftmost-match scanner: try `f` at each position, left to
right, passing the previous character for `\b` tests. -/
def scanFor (f : Option Char → List Char → Option α) : Option Char → List Char → Option α
  | prev, cs =>
    match f prev cs with
    | some r => some r
    | none =>
      match cs with
      | [] => none
      | c :: rest => scanFor f (some c) rest

/-- `(?:st|nd|rd|th)` test. -/
def isOrdSuffix (cs : List Char) : Bool :=
  ["st", "nd", "rd", "th"].any (fun s => s.data.isPrefixOf cs)

/-- `[,\s]+(\d{4})\b`: at least one comma/space, then exactly four digits
(a longer digit run makes the trailing `\b` fail, as in the regex). -/
def yearConsume (cs : List Char) : Option Nat :=
  let rest1 := cs.dropWhile (fun c => c = ',' || isWsC c)
  if rest1.length = cs.length then none
  else
    let s := digitSpan rest1
    if s.1.length = 4 && boundaryAfter s.2 then some (natOfDigits s.1) else none

/-- `(?:[,\s]+(\d{4}))?\b` (the char just consumed is a word character):
try the year group greedily, fall back to the bare boundary. -/
def yearTail (cs : List Char) : Option (Option Nat) :=
  match yearConsume cs with
  | some y => some (some y)
  | none => if boundaryAfter cs then some none else none

/-- `(?:st|nd|rd|th)?(?:[,\s]+(\d{4}))?\b` after the day digits. -/
def namedTail (cs : List Char) : Option (Option Nat) :=
  match (if isOrdSuffix cs then yearTail (cs.drop 2) else none) with
  | some r => some r
  | none => yearTail cs

/-- Named-date regex #1, `\b(month)\s+(\d{1,2})(?:st|nd|rd|th)?(?:[,\s]+(\d{4}))?\b`,
tried at one position.  Captures (month index, day, optional year). -/
def named1At (prev : Option Char) (cs : List Char) : Option (Nat × Nat × Option Nat) :=
  if boundaryBefore prev then
    monthAlt cs (fun mo rest =>
      match ws1 rest with
      | none => none
      | some rest2 =>
        day12 rest2 (fun day rest3 =>
          (namedTail rest3).map (fun yr => (mo, day, yr))))
  else none

/-- `(?:\s+(\d{4}))?\b` after a month name (last consumed char is a letter). -/
def monthYearTail (cs : List Char) : Option (Option Nat) :=
  match
    (match ws1 cs with
     | some rest1 =>
        let s := digitSpan rest1
        if s.1.length = 4 && boundaryAfter s.2 then some (natOfDigits s.1) else none
     | none => none) with
  | some y => some (some y)
  | none => if boundaryAfter cs then some none else none

/-- Named-date regex #2, `\b(\d{1,2})(?:st|nd|rd|th)?\s+(month)(?:\s+(\d{4}))?\b`.
The ordinal suffix may be consumed greedily without backtracking: the `\s+`
that follows can never match at `st`/`nd`/`rd`/`th`. -/
def named2At (prev : Option Char) (cs : List Char) : Option (Nat × Nat × Option Nat) :=
  if boundaryBefore prev then
    day12 cs (fun day rest =>
      let rest1 := if isOrdSuffix rest then rest.drop 2 else rest
      match ws1 rest1 with
      | none => none
      | some rest2 =>
        monthAlt rest2 (fun mo rest3 =>
          (monthYearTail rest3).map (fun yr => (mo, day, yr))))
  else none

/-- Layer 2: `extractNamed(text, ref)`. -/
def extractNamed (text : String) (ref : Int) : Option DateResult :=
  let cs := lowerS text
  match scanFor named1At none cs with
  | some (mo, day, yr) =>
      let d := match yr with
        | some y => jsDate y mo day
        | none => inferYear mo day ref
      some ⟨d, none, "named"⟩
  | none =>
    match scanFor named2At none cs with
    | some (mo, day, yr) =>
        let d := match yr with
          | some y => jsDate y mo day
          | none => inferYear mo day ref
        some ⟨d, none, "named"⟩
    | none => none

/-- ISO regex `\b(\d{4})-(\d{1,2})-(\d{1,2})\b` at one position. -/
def isoAt (prev : Option Char) (cs : List Char) : Option (Nat × Nat × Nat) :=
  if boundaryBefore prev then
    let s := digitSpan cs
    if s.1.length = 4 then
      match s.2 with
      | '-' :: rest1 =>
        day12 rest1 (fun mm rest2 =>
          match rest2 with
          | '-' :: rest3 =>
            day12 rest3 (fun dd rest4 =>
              if boundaryAfter rest4 then some (natOfDigits s.1, mm, dd) else none)
          | _ => none)
      | _ => none
    else none
  else none

def isSlashDash (c : Char) : Bool := c = '/' || c = '-'

/-- Numeric regex `\b(\d{1,2})[\/\-](\d{1,2})[\/\-](\d{4})\b` at one position. -/
def dmyAt (prev : Option Char) (cs : List Char) : Option (Nat × Nat × Nat) :=
  if boundaryBefore prev then
    day12 cs (fun dd rest =>
      match rest with
      | c1 :: rest1 =>
        if isSlashDash c1 then
          day12 rest1 (fun mm rest2 =>
            match rest2 with
            | c2 :: rest3 =>
              if isSlashDash c2 then
                let s := digitSpan rest3
                if s.1.length = 4 && boundaryAfter s.2 then
                  some (dd, mm, natOfDigits s.1)
                else none
              else none
            | [] => none)
        else none
      | [] => none)
  else none

/-- Layer 1: `extractISO(text, ref)` (the reference date is unused). -/
def extractISO (text : String) (_ref : Int) : Option DateResult :=
  let cs := lowerS text
  match scanFor isoAt none cs with
  | some (y, mm, dd) => some ⟨jsDate y ((mm : Int) - 1) dd, none, "iso"⟩
  | none =>
    match scanFor dmyAt none cs with
    | some (dd, mm, y) => some ⟨jsDate y ((mm : Int) - 1) dd, none, "numeric"⟩
    | none => none

/-- Separator `\s*(?:to|–|-|through)\s*` (re3 omits `through`).  Committing
to the first matching alternative is safe: no two alternatives can match at
the same position. -/
def rangeSep (withThrough : Bool) (cs : List Char) : Option (List Char) :=
  let cs1 := wsStar cs
  let afterSep :=
    if "to".data.isPrefixOf cs1 then some (cs1.drop 2)
    else if "–".data.isPrefixOf cs1 then some (cs1.drop 1)
    else if "-".data.isPrefixOf cs1 then some (cs1.drop 1)
    else if withThrough && "through".data.isPrefixOf cs1 then some (cs1.drop 7)
    else none
  afterSep.map wsStar

/-- Range regex #1 `\b(month)\s+(\d{1,2})\s*(?:to|–|-|through)\s*(month)\s+(\d{1,2})\b`. -/
def range1At (prev : Option Char) (cs : List Char) : Option (Nat × Nat × Nat × Nat) :=
  if boundaryBefore prev then
    monthAlt cs (fun mo1 r1 =>
      match ws1 r1 with
      | none => none
      | some r2 =>
        day12 r2 (fun d1 r3 =>
          match rangeSep true r3 with
          | none => none
          | some r4 =>
            monthAlt r4 (fun mo2 r5 =>
              match ws1 r5 with
              | none => none
              | some r6 =>
                day12 r6 (fun d2 r7 =>
                  if boundaryAfter r7 then some (mo1, d1, mo2, d2) else none))))
  else none

/-- Range regex #2 `\b(month)\s+(\d{1,2})\s*(?:to|–|-|through)\s*(\d{1,2})\b`. -/
def range2At (prev : Option Char) (cs : List Char) : Option (Nat × Nat × Nat) :=
  if boundaryBefore prev then
    monthAlt cs (fun mo r1 =>
      match ws1 r1 with
      | none => none
      | some r2 =>
        day12 r2 (fun d1 r3 =>
          match rangeSep true r3 with
          | none => none
          | some r4 =>
            day12 r4 (fun d2 r5 =>
              if boundaryAfter r5 then some (mo, d1, d2) else none)))
  else none

/-- Range regex #3 `\b(\d{1,2})\s*(?:to|–|-)\s*(\d{1,2})\s+(month)\b`. -/
def range3At (prev : Option Char) (cs : List Char) : Option (Nat × Nat × Nat) :=
  if boundaryBefore prev then
    day12 cs (fun d1 r1 =>
      match rangeSep false r1 with
      | none => none
      | some r2 =>
        day12 r2 (fun d2 r3 =>
          match ws1 r3 with
          | none => none
          | some r4 =>
            monthAlt r4 (fun mo r5 =>
              if boundaryAfter r5 then some (d1, d2, mo) else none)))
  else none

/-- Layer 3: `extractRange(text, ref)`. -/
def extractRange (text : String) (ref : Int) : Option DateResult :=
  let cs := lowerS text
  match scanFor range1At none cs with
  | some (mo1, d1, mo2, d2) =>
      some ⟨inferYear mo1 d1 ref, some (inferYear mo2 d2 ref), "range"⟩
  | none =>
    match scanFor range2At none cs with
    | some (mo, d1, d2) =>
        some ⟨inferYear mo d1 ref, some (inferYear mo d2 ref), "range"⟩
    | none =>
      match scanFor range3At none cs with
      | some (d1, d2, mo) =>
          some ⟨inferYear mo d1 ref, some (inferYear mo d2 ref), "range"⟩
      | none => none

/-- `\bLIT\b` for a literal that begins and ends with word characters (true
for every literal used this way in the source). -/
def litWordAt (w : String) (prev : Option Char) (cs : List Char) : Option Unit :=
  if boundaryBefore prev && w.data.isPrefixOf cs && boundaryAfter (cs.drop w.data.length)
  then some () else none

/-- `new RegExp("\\b" + w + "\\b").test(text)` for such literals. -/
def testWord (text : List Char) (w : String) : Bool :=
  (scanFor (litWordAt w) none text).isSome

/-- `\bnext\s+(\d+)\s+(day|week)s?\b` at one position: captures (N, isWeek). -/
def nextNAt (prev : Option Char) (cs : List Char) : Option (Nat × Bool) :=
  if boundaryBefore prev && "next".data.isPrefixOf cs then
    match ws1 (cs.drop 4) with
    | none => none
    | some r1 =>
      let s := digitSpan r1
      if s.1.isEmpty then none
      else
        match ws1 s.2 with
        | none => none
        | some r3 =>
          let unit : Option (Bool × List Char) :=
            if "day".data.isPrefixOf r3 then some (false, r3.drop 3)
            else if "week".data.isPrefixOf r3 then some (true, r3.drop 4)
            else none
          match unit with
          | none => none
          | some (isWeek, r4) =>
            match r4 with
            | 's' :: r5 => if boundaryAfter r5 then some (natOfDigits s.1, isWeek) else none
            | _ => if boundaryAfter r4 then some (natOfDigits s.1, isWeek) else none
  else none

/-- `DAYS` from the source, Sunday first. -/
def daysOfWeek : List String :=
  ["sunday", "monday", "tuesday", "wednesday", "thursday", "friday", "saturday"]

/-- `\b(?:this|next|coming)\s+<weekday>\b` at one position (the three
prefixes start with distinct letters, so committing is safe). -/
def thisNextDayAt (dayName : String) (prev : Option Char) (cs : List Char) : Option Unit :=
  if boundaryBefore prev then
    let afterPre :=
      if "this".data.isPrefixOf cs then some (cs.drop 4)
      else if "next".data.isPrefixOf cs then some (cs.drop 4)
      else if "coming".data.isPrefixOf cs then some (cs.drop 6)
      else none
    match afterPre with
    | none => none
    | some r1 =>
      match ws1 r1 with
      | none => none
      | some r2 =>
        if dayName.data.isPrefixOf r2 && boundaryAfter (r2.drop dayName.data.length)
        then some () else none
  else none

/-- The weekday loop of `extractRelative`: first matching weekday in `DAYS`
order (Sunday first), as the source's `for` loop returns on first hit. -/
def findWeekdayIdx (lower : List Char) : Option Nat :=
  (List.range 7).find?
    (fun i => (scanFor (thisNextDayAt (daysOfWeek.getD i "")) none lower).isSome)

/-- Layer 4: `extractRelative(text, ref)`. -/
def extractRelative (text : String) (ref : Int) : Option DateResult :=
  let lower := lowerS text
  if testWord lower "tomorrow" then some ⟨ref + dayMs, none, "relative"⟩
  else if testWord lower "today" then some ⟨ref, none, "relative"⟩
  else
    match scanFor nextNAt none lower with
    | some (n, isWeek) =>
        let unit : Int := if isWeek then 7 else 1
        some ⟨ref, some (ref + (n : Int) * unit * dayMs), "relative"⟩
    | none =>
      if testWord lower "next week" then
        let start := ref + (7 - weekdayOf ref + 1) * dayMs
        some ⟨start, some (start + 6 * dayMs), "relative"⟩
      else
        match findWeekdayIdx lower with
        | some i =>
            let diff0 := ((i : Int) - weekdayOf ref + 7) % 7
            let diff := if diff0 = 0 then 7 else diff0
            some ⟨ref + diff * dayMs, none, "relative"⟩
        | none =>
          if testWord lower "this weekend" then
            let sat := ref + ((6 - weekdayOf ref + 7) % 7) * dayMs
            some ⟨sat, some (sat + dayMs), "relative"⟩
          else none

/-- The anchor alternation `(?:ends?|last date|deadline|valid (?:till|until)|expires?|before)`.
Alternatives diverge within their common prefixes, so committing to the
first match is safe; the greedy optional `s` needs no backtracking because
the following `\s+` can never match at `s`. -/
def deadlineAnchor (cs : List Char) : Option (List Char) :=
  if "end".data.isPrefixOf cs then
    match cs.drop 3 with
    | 's' :: r2 => some r2
    | r => some r
  else if "last date".data.isPrefixOf cs then some (cs.drop 9)
  else if "deadline".data.isPrefixOf cs then some (cs.drop 8)
  else if "valid till".data.isPrefixOf cs then some (cs.drop 10)
  else if "valid until".data.isPrefixOf cs then some (cs.drop 11)
  else if "expire".data.isPrefixOf cs then
    match cs.drop 6 with
    | 's' :: r2 => some r2
    | r => some r
  else if "before".data.isPrefixOf cs then some (cs.drop 6)
  else none

/-- Deadline regex at one position:
`\b(anchor)\s+(?:on\s+)?(month)\s+(\d{1,2})(?:st|nd|rd|th)?(?:[,\s]+(\d{4}))?\b`.
Committing to `on\s+` is safe: no month name starts with `on`. -/
def deadlineAt (prev : Option Char) (cs : List Char) : Option (Nat × Nat × Option Nat) :=
  if boundaryBefore prev then
    match deadlineAnchor cs with
    | none => none
    | some r1 =>
      match ws1 r1 with
      | none => none
      | some r2 =>
        let r3 :=
          if "on".data.isPrefixOf r2 then
            match ws1 (r2.drop 2) with
            | some r => r
            | none => r2
          else r2
        monthAlt r3 (fun mo r4 =>
          match ws1 r4 with
          | none => none
          | some r5 =>
            day12 r5 (fun day r6 => (namedTail r6).map (fun yr => (mo, day, yr))))
  else none

/-- Layer 5: `extractDeadline(text, ref)` — `start` is (a clone of) the
reference date, `end` the parsed named date. -/
def extractDeadline (text : String) (ref : Int) : Option DateResult :=
  let cs := lowerS text
  match scanFor deadlineAt none cs with
  | some (mo, day, yr) =>
    let d := match yr with
      | some y => jsDate y mo day
      | none => inferYear mo day ref
    some ⟨ref, some d, "deadline"⟩
  | none => none

/-- `extractDate(text, pubDate)` with a valid reference timestamp `ref`
(the source defaults a missing `pubDate` to the current clock and returns
`null` for an unparseable one; both live outside this model's inputs).
The five layers are tried in source order, first match wins. -/
def extractDate (text : String) (ref : Int) : Option DateResult :=
  if text = "" then none
  else
    (extractISO text ref).orElse fun _ =>
    (extractNamed text ref).orElse fun _ =>
    (extractRange text ref).orElse fun _ =>
    (extractRelative text ref).orElse fun _ =>
    extractDeadline text ref

/-! ### plannerStorage — localStorage date-keyed CRUD -/

/-- A persisted planner record (`{id, title, category, link, addedAt}`). -/
structure PItem where
  id : String
  title : String
  category : String
  link : String
  addedAt : Int
deriving DecidableEq, Repr

/-- The parsed store blob: an insertion-ordered mapping from `YYYY-MM-DD`
keys to record lists (JS object key order). -/
abbrev PlannerStore := List (String × List PItem)

mutual

/-- `split(/\s+/)` on a char list: the segments between maximal whitespace
runs; a leading or trailing run contributes an empty segment, exactly as in
JS.  `splitWsTok` accumulates the current segment, `splitWsSep` skips a
whitespace run. -/
def splitWsTok (cur : List Char) : List Char → List (List Char)
  | [] => [cur]
  | c :: rest =>
    if isWsC c then cur :: splitWsSep rest
    else splitWsTok (cur ++ [c]) rest

def splitWsSep : List Char → List (List Char)
  | [] => [[]]
  | c :: rest => if isWsC c then splitWsSep rest else splitWsTok [c] rest

end

/-- `new Set(a.toLowerCase().split(/\s+/))`: dedup keeps set semantics. -/
def wordSet (a : String) : List String :=
  ((splitWsTok [] (lowerS a)).map (fun l => String.mk l)).dedup

/-- `similarity(a, b)` as the exact pair (intersection size, union size);
the source computes the IEEE quotient `inter / (|wa| + |wb| - inter)`. -/
def simParts (a b : String) : Nat × Nat :=
  let wa := wordSet a
  let wb := wordSet b
  let inter := (wa.filter (fun w => wb.contains w)).length
  (inter, wa.length + wb.length - inter)

/-- `similarity(a, b) > 0.7`, by cross-multiplication (exact; agrees with
the IEEE comparison on the modeled inputs). -/
def simGT07 (a b : String) : Bool :=
  let p := simParts a b
  10 * p.1 > 7 * p.2

/-- `isDuplicate(existing, newItem)`; `item.title && newItem.title` is JS
truthiness — the empty string is falsy. -/
def isDuplicate (existing : List PItem) (newItem : PItem) : Bool :=
  existing.any (fun item =>
    item.id == newItem.id ||
    (item.title != "" && newItem.title != "" && simGT07 item.title newItem.title))

/-- JS `<` on strings: lexicographic on code units (for the BMP characters
of ISO day keys, on code points). -/
def strLtJS : List Char → List Char → Bool
  | [], [] => false
  | [], _ :: _ => true
  | _ :: _, [] => false
  | a :: as, b :: bs =>
      if a.toNat < b.toNat then true
      else if b.toNat < a.toNat then false
      else strLtJS as bs

/-- `prune(data)`: delete every key lexicographically below the cutoff.
The source computes `cutoffKey` as the ISO day key of (current date − 7
days); it is a parameter here.  ISO day keys compare as JS strings exactly
like the calendar days they denote. -/
def prunePlanner (cutoffKey : String) (data : PlannerStore) : PlannerStore :=
  data.filter (fun kv => !strLtJS kv.1.data cutoffKey.data)

/-- `plannerStorage.getDay(dateKey)`: a plain read — no pruning, no write. -/
def plannerGetDay (data : PlannerStore) (dateKey : String) : List PItem :=
  match data.find? (fun kv => kv.1 == dateKey) with
  | some kv => kv.2
  | none => []

/-- `plannerStorage.getAll()`: prunes, saves, and returns; the result is
both the returned value and the newly persisted store. -/
def plannerGetAll (cutoffKey : String) (data : PlannerStore) : PlannerStore :=
  prunePlanner cutoffKey data

/-- `if (!data[key]) data[key] = []` (new keys append in object order). -/
def ensureKey (data : PlannerStore) (key : String) : PlannerStore :=
  if data.any (fun kv => kv.1 == key) then data else data ++ [(key, [])]

def pushAt (data : PlannerStore) (key : String) (it : PItem) : PlannerStore :=
  data.map (fun kv => if kv.1 == key then (kv.1, kv.2 ++ [it]) else kv)

/-- The inner loop of `merge`: push each non-duplicate item (with
`addedAt: Date.now()`) onto the day list, re-reading the list as it grows. -/
def mergeItemsAt (now : Int) (data : PlannerStore) (key : String) : List PItem → PlannerStore
  | [] => data
  | it :: rest =>
      let cur := plannerGetDay data key
      let data1 := if isDuplicate cur it then data
                   else pushAt data key { it with addedAt := now }
      mergeItemsAt now data1 key rest

def mergeKeys (now : Int) (data : PlannerStore) :
    List String → List PItem → PlannerStore
  | [], _ => data
  | key :: rest, items =>
      mergeKeys now (mergeItemsAt now (ensureKey data key) key items) rest items

/-- `plannerStorage.merge(dateKeys, items)`: load, prune, insert, save. -/
def plannerMerge (cutoffKey : String) (now : Int) (data : PlannerStore)
    (dateKeys : List String) (items : List PItem) : PlannerStore :=
  mergeKeys now (prunePlanner cutoffKey data) dateKeys items

/-! ### upAheadService.js — keyword matching -/

/-- ASCII uppercasing (`String.prototype.toUpperCase` on the modeled texts). -/
def upperChar (c : Char) : Char :=
  if 'a' ≤ c ∧ c ≤ 'z' then Char.ofNat (c.toNat - 32) else c

/-- `matchesWord(text, word)`: `new RegExp("\\b" + escaped + "\\b", "i")`
(the escaping makes the word a literal; every single-word keyword begins
and ends with a word character).  The source memoizes the compiled pattern
per word in the module-level `_wbCache`; the cache holds immutable compiled
regexes and cannot change any match result, so it is not modeled. -/
def matchesWordB (text : List Char) (w : String) : Bool := testWord text w

/-- `matchesKeyword(text, keyword)`: multi-word phrases use `includes`,
single words use word-boundary matching. -/
def matchesKeyword (text : List Char) (keyword : String) : Bool :=
  if keyword.data.contains ' ' then containsSub text keyword.data
  else matchesWordB text keyword

def NEGATIVE_KEYWORDS_commentary : List String :=
  ["review", "reviewed", "reviews",
   "opinion", "editorial", "column", "op-ed",
   "analysis", "deep dive", "explainer", "explained",
   "interview", "memoir", "podcast", "recap",
   "retrospective", "lookback", "throwback"]

def NEGATIVE_KEYWORDS_gossip : List String :=
  ["gossip", "rumour", "rumor", "spotted", "dating",
   "divorce", "controversy", "trolled", "slammed",
   "reacts", "reaction", "claps back", "feud",
   "leaked", "wardrobe malfunction", "breakup"]

def NEGATIVE_KEYWORDS_crime : List String :=
  ["arrested", "murder", "stabbed", "robbery",
   "scam", "fraud", "accused", "chargesheet",
   "sentenced", "bail", "fir filed", "kidnap",
   "suicide", "death toll", "fatal"]

def NEGATIVE_KEYWORDS_finance_noise : List String :=
  ["quarterly results", "earnings call", "dividend",
   "stock split", "ipo allotment", "listing gains",
   "shareholding pattern", "promoter stake",
   "mutual fund nav", "portfolio rebalancing"]

def NEGATIVE_KEYWORDS_political_noise : List String :=
  ["alleges", "slams", "hits out", "war of words",
   "defamation", "no confidence", "horse trading",
   "exit poll", "poll prediction", "meme"]

def NEGATIVE_KEYWORDS_past_tense : List String :=
  ["was held", "concluded", "wrapped up",
   "came to an end", "successfully completed",
   "inaugurated by", "flagged off",
   "took place", "was celebrated"]

def NEGATIVE_KEYWORDS_obituary : List String :=
  ["passes away", "passed away", "demise", "rip",
   "condolences", "last rites", "funeral",
   "pays tribute", "mourns", "obituary"]

def NEGATIVE_KEYWORDS_listicle : List String :=
  ["top 10", "top 5", "best of", "worst of",
   "reasons why", "things you", "ranked",
   "all you need to know", "everything we know"]

def NEGATIVE_KEYWORDS_collection_reports : List String :=
  ["box office collection", "day 1 collection",
   "total collection", "worldwide gross",
   "opening weekend", "first week collection",
   "crosses crore", "nett collection"]

def NEGATIVE_KEYWORDS_clickbait : List String :=
  ["shocking", "you won't believe", "jaw dropping",
   "gone viral", "breaks the internet", "exclusive"]

/-- `Object.values(NEGATIVE_KEYWORDS).flat()`, in declaration order. -/
def ALL_NEGATIVE_KEYWORDS : List String :=
  NEGATIVE_KEYWORDS_commentary ++ NEGATIVE_KEYWORDS_gossip ++
  NEGATIVE_KEYWORDS_crime ++ NEGATIVE_KEYWORDS_finance_noise ++
  NEGATIVE_KEYWORDS_political_noise ++ NEGATIVE_KEYWORDS_past_tense ++
  NEGATIVE_KEYWORDS_obituary ++ NEGATIVE_KEYWORDS_listicle ++
  NEGATIVE_KEYWORDS_collection_reports ++ NEGATIVE_KEYWORDS_clickbait

def FORWARD_LOOKING_SIGNALS : List String :=
  ["upcoming", "scheduled", "starting", "launches", "opens",
   "begins", "commences", "from today", "this weekend",
   "next week", "releasing", "premieres", "debuts",
   "kicks off", "set to", "slated for", "expected on",
   "effective from", "valid till", "last date", "deadline",
   "registrations open", "bookings open", "doors open",
   "book now", "tickets available", "grab your", "register",
   "rsvp", "sign up", "enroll", "apply before",
   "limited seats", "early bird", "pre-order",
   "advance booking", "buy tickets", "entry free",
   "venue", "stadium", "auditorium", "convention centre",
   "exhibition hall", "multiplex", "arena", "grounds",
   "schedule", "timetable", "lineup", "itinerary",
   "match day", "race day", "show timings", "showtimes",
   "time slot", "batch"]

/-- `CATEGORY_POSITIVE_KEYWORDS` (per-category positive tables). -/
def CATEGORY_POSITIVE_KEYWORDS : String → List String
  | "movies" =>
      ["release date", "releasing", "in theatres", "in theaters",
       "first day", "advance booking", "fdfs",
       "premiere", "preview", "sneak peek", "special screening",
       "ott release", "streaming from", "now streaming",
       "available on", "direct to ott", "digital premiere",
       "tickets", "showtimes", "book now", "bookmyshow",
       "ticketnew", "paytm movies",
       "trailer launch", "teaser release", "motion poster"]
  | "events" =>
      ["concert", "live music", "standup", "comedy show",
       "theatre", "theater", "drama", "stage play",
       "dance recital", "sabha", "kutcheri", "kutchery",
       "exhibition", "expo", "book fair", "trade fair",
       "flea market", "art gallery", "trade show",
       "workshop", "masterclass", "bootcamp", "seminar",
       "webinar", "hackathon", "meetup",
       "food festival", "pop-up", "tasting", "brunch",
       "food walk", "heritage walk", "night market",
       "entry fee", "passes available", "gate open",
       "limited slots", "registration"]
  | "sports" =>
      [" vs ", " v/s ", "match", "fixture", "squad announced",
       "playing xi", "toss", "innings",
       "schedule", "points table", "qualifier",
       "semi final", "final", "playoffs",
       "stadium", "live on", "broadcast", "streaming",
       "start time", "kick off", "first ball"]
  | "festivals" =>
      ["holiday", "bank holiday", "gazetted",
       "declared holiday", "government holiday",
       "pongal", "diwali", "deepavali", "navratri",
       "dussehra", "eid", "ramadan", "christmas",
       "onam", "vishu", "ugadi", "holi", "ganesh",
       "jayanti", "puja", "pooja", "thai pusam",
       "observed on", "falls on", "celebrated on",
       "auspicious", "muhurtham", "tithi"]
  | "shopping" =>
      ["sale", "mega sale", "flash sale", "clearance",
       "end of season", "flat discount", "upto off",
       "cashback", "coupon", "promo code",
       "shopping festival", "exhibition sale",
       "trade fair", "grand opening",
       "limited period", "ends today", "last day",
       "offer valid", "while stocks last", "hurry"]
  | "alerts" =>
      ["power cut", "power shutdown", "load shedding",
       "tangedco", "tneb", "scheduled maintenance",
       "water cut", "water supply", "disruption",
       "traffic advisory", "road closure", "diversion",
       "metro shutdown", "bus route change",
       "train cancelled", "flight delayed",
       "boil water advisory", "mosquito fogging",
       "tree trimming", "construction zone"]
  | "weather_alerts" =>
      ["warning", "alert", "advisory", "watch",
       "red alert", "orange alert", "yellow alert",
       "heavy rain", "very heavy rain", "cyclone",
       "thunderstorm", "heat wave", "cold wave",
       "fog", "flooding", "high tide", "storm surge",
       "imd", "met department", "weather bulletin"]
  | "civic" =>
      ["vip movement", "vip visit", "road block",
       "security arrangement", "route change",
       "bandh", "hartal", "strike", "protest march",
       "rasta roko", "rail roko",
       "corporation notice", "tender", "public hearing",
       "ward meeting", "grievance day"]
  | _ => []

/-! ### upAheadService.js — data model and settings -/

/-- An item as produced by `normalizeUpAheadItem`.  `fs` models the expando
property `_forwardScore` that the aggregator writes onto the object (absent
before a first run); `pubDate`/`extractedDate` are `none` when missing or
invalid. -/
structure UAItem where
  id : String
  title : String
  description : String
  link : String
  pubDate : Option Int
  extractedDate : Option Int
  category : String
  isRoundup : Bool
  subItems : List String
  fs : Option Nat
deriving DecidableEq, Repr

/-- The settings fields the aggregator reads (`hideOlderThanHours` from the
top level, `keywords`/`locations` from `settings.upAhead`). -/
structure UASettings where
  hideOlderThanHours : Option Int
  keywords : List (String × List String)
  locations : Option (List String)
deriving DecidableEq, Repr

def lookupKw (s : UASettings) (k : String) : List String :=
  match s.keywords.find? (fun p => p.1 == k) with
  | some p => p.2
  | none => []

/-- `(settings?.hideOlderThanHours || 60) * 60 * 60 * 1000` (`0` is falsy). -/
def maxAgeMsOf (s : UASettings) : Int :=
  (match s.hideOlderThanHours with
   | some h => if h = 0 then 60 else h
   | none => 60) * hourMs

/-- `CATEGORY_MAX_AGE_HOURS` (strict per-category freshness limits). -/
def CATEGORY_MAX_AGE_HOURS : String → Option Int
  | "weather_alerts" => some 6
  | "alerts" => some 12
  | "festivals" => some 336
  | _ => none

/-- The section keys, in object-declaration order. -/
def sectionCats : List String :=
  ["movies", "festivals", "alerts", "events", "sports", "shopping", "civic", "weather_alerts"]

/-- `mergedNegatives` (built-in table plus user-supplied negatives). -/
def mergedNegativesOf (s : UASettings) : List String :=
  ALL_NEGATIVE_KEYWORDS ++ lookupKw s "negative"

/-- `mergedPositives[cat]` — computed for the section keys, `[]` otherwise
(`mergedPositives[item.category] || []`). -/
def mergedPositivesOf (s : UASettings) (cat : String) : List String :=
  if sectionCats.contains cat then CATEGORY_POSITIVE_KEYWORDS cat ++ lookupKw s cat else []

/-- `(settings?.upAhead?.locations || ['Chennai','Muscat','Trichy']).map(toLowerCase)`. -/
def userLocationsOf (s : UASettings) : List String :=
  ((s.locations).getD ["Chennai", "Muscat", "Trichy"]).map (fun l => String.mk (lowerS l))

/-- `(item.title + " " + item.description).toLowerCase()`. -/
def fullTextOf (i : UAItem) : List Char := lowerS (i.title ++ " " ++ i.description)

/-! ### upAheadService.js — per-item gates -/

/-- The strict freshness gate (lines 751–770): an item without a valid
publish timestamp is dropped; otherwise its age must not exceed the
effective max age (the category override, when present, capped by the
global setting via `Math.min`). -/
def freshGate (pubDate : Option Int) (category : String) (s : UASettings) (now : Int) : Bool :=
  match pubDate with
  | none => false
  | some pub =>
    let ageMs := now - pub
    let effectiveMaxAgeMs :=
      match CATEGORY_MAX_AGE_HOURS category with
      | some h => min (maxAgeMsOf s) (h * hourMs)
      | none => maxAgeMsOf s
    !(decide (ageMs > effectiveMaxAgeMs))

/-- Unit class captured by the staleness regex: by alternation order the
capture is decided by its first letters (`mo` / `w` / `y`). -/
inductive StaleUnit
  | mon
  | wk
  | yr
deriving DecidableEq, Repr

/-- One position of
`(?:•|-|published)\s*(\d+)\s*(mo|month|months|w|week|weeks|y|year|years)\s*(?:ago)?`
(no `\b`: the prefix may occur inside a longer word, as in the source). -/
def staleAt (_prev : Option Char) (cs : List Char) : Option (Nat × StaleUnit) :=
  let afterPre :=
    if "•".data.isPrefixOf cs then some (cs.drop 1)
    else if "-".data.isPrefixOf cs then some (cs.drop 1)
    else if "published".data.isPrefixOf cs then some (cs.drop 9)
    else none
  match afterPre with
  | none => none
  | some r1 =>
    let s := digitSpan (wsStar r1)
    if s.1.isEmpty then none
    else
      let r3 := wsStar s.2
      let unit : Option StaleUnit :=
        if "mo".data.isPrefixOf r3 then some .mon
        else if "w".data.isPrefixOf r3 then some .wk
        else if "y".data.isPrefixOf r3 then some .yr
        else none
      unit.map (fun u => (natOfDigits s.1, u))

/-- The staleness-marker decision (lines 784–800): the first match decides;
month/year units always drop, week units drop when the count is ≥ 1. -/
def staleDrop (fullText : List Char) : Bool :=
  match scanFor staleAt none fullText with
  | some (qty, u) =>
    match u with
    | .mon => true
    | .yr => true
    | .wk => decide (qty ≥ 1)
  | none => false

/-- `/\d+ new/`: some digit immediately followed by `" new"`. -/
def digitNewAt (_prev : Option Char) (cs : List Char) : Option Unit :=
  match cs with
  | c :: rest => if isDigitC c && " new".data.isPrefixOf rest then some () else none
  | [] => none

/-- The roundup exemption test of the negative filter (line 808):
`/ott|releases|week|weekend/i.test(fullText) && /\d+ new/i.test(fullText)`;
note that it runs on the full title+description text. -/
def roundupText (fullText : List Char) : Bool :=
  (containsSub fullText "ott".data || containsSub fullText "releases".data ||
   containsSub fullText "week".data || containsSub fullText "weekend".data) &&
  (scanFor digitNewAt none fullText).isSome

/-- The roundup flag `normalizeUpAheadItem` computes from the title alone
(line 520): `/ott|releases|week/i.test(title) && /\d+ new/i.test(title)`. -/
def titleRoundup (title : String) : Bool :=
  let cs := lowerS title
  (containsSub cs "ott".data || containsSub cs "releases".data ||
   containsSub cs "week".data) &&
  (scanFor digitNewAt none cs).isSome

/-- Layer 1: `mergedNegatives.some(w => matchesKeyword(fullText, w.toLowerCase()))`. -/
def anyNegative (s : UASettings) (ft : List Char) : Bool :=
  (mergedNegativesOf s).any (fun w => matchesKeyword ft (String.mk (lowerS w)))

/-- Layer 2: signal count over the whole vocabulary (plain `includes`). -/
def forwardScoreOf (fullText : List Char) : Nat :=
  FORWARD_LOOKING_SIGNALS.foldl
    (fun sc sig => if containsSub fullText sig.data then sc + 1 else sc) 0

/-- Layer 3 drop decision (lines 820–830). -/
def layer3Drop (s : UASettings) (ft : List Char) (cat : String) (forwardScore : Nat) : Bool :=
  let allPositive := mergedPositivesOf s cat
  if allPositive.length > 0 then
    let hasPositiveMatch := allPositive.any (fun w => matchesKeyword ft (String.mk (lowerS w)))
    let isPlannerCategory := ["movies", "events", "sports", "shopping"].contains cat
    isPlannerCategory && !hasPositiveMatch && forwardScore == 0
  else false

/-- Layer 4 (lines 832–838): alerts/civic must mention a user location. -/
def locationDrop (s : UASettings) (ft : List Char) (cat : String) : Bool :=
  if cat == "alerts" || cat == "civic" then
    !((userLocationsOf s).any (fun loc => containsSub ft loc.data))
  else false

/-! ### upAheadService.js — aggregation into timeline / sections / plan -/

/-- A section display record; `toDateString()` is abstracted to the
calendar day of the underlying date. -/
structure DisplayItem where
  title : String
  link : String
  releaseDate : Option Int
  date : Option Int
  text : String
  severity : String
  language : String
  isRoundup : Bool
  subItemsCount : Nat
deriving DecidableEq, Repr

/-- A timeline item before `delete item._forwardScore`. -/
structure TlMid where
  id : String
  type : String
  title : String
  subtitle : String
  description : String
  tags : List String
  link : String
  isRoundup : Bool
  subItems : List String
  fsv : Nat
deriving DecidableEq, Repr

/-- A timeline item as exposed (after the score is deleted). -/
structure TimelineItemOut where
  id : String
  type : String
  title : String
  subtitle : String
  description : String
  tags : List String
  link : String
  isRoundup : Bool
  subItems : List String
deriving DecidableEq, Repr

structure TimelineDayOut where
  date : Int
  dayLabel : String
  items : List TimelineItemOut
deriving DecidableEq, Repr

structure PlanItem where
  title : String
  type : String
  icon : String
  link : String
deriving DecidableEq, Repr

structure UAOutput where
  timeline : List TimelineDayOut
  sections : List (String × List DisplayItem)
  weekly_plan : List (String × List PlanItem)
  lastUpdated : Int
deriving DecidableEq, Repr

def getItemType : String → String
  | "movies" => "movie"
  | "events" => "event"
  | "festivals" => "festival"
  | "alerts" => "alert"
  | "sports" => "sport"
  | "shopping" => "shopping"
  | "civic" => "civic"
  | "weather_alerts" => "weather_alert"
  | _ => "event"

def getCategoryIcon : String → String
  | "movie" => "🎬"
  | "event" => "🎭"
  | "festival" => "🎊"
  | "alert" => "⚠️"
  | "sport" => "⚽"
  | "shopping" => "🛒"
  | "civic" => "🏛️"
  | "entertainment" => "🎶"
  | "weather_alert" => "🌪️"
  | "general" => "📅"
  | _ => "📅"

def weekdayLongName (day : Int) : String :=
  (["Sunday", "Monday", "Tuesday", "Wednesday", "Thursday", "Friday",
    "Saturday"]).getD ((day + 4) % 7).toNat ""

/-- `getDayLabel(date)`: "Today"/"Tomorrow", otherwise the locale weekday
and month/day rendering, abstracted to weekday name plus day number. -/
def getDayLabel (now t : Int) : String :=
  let todayKey := dayNumOf now
  let d := dayNumOf t
  if d = todayKey then "Today"
  else if d = todayKey + 1 then "Tomorrow"
  else weekdayLongName d ++ ", day " ++ toString d

/-- `` `${item.subItems?.length || 'Multiple'} ITEMS` `` for roundups, else
`category.toUpperCase()`. -/
def subtitleOf (i : UAItem) : String :=
  if i.isRoundup then
    (if i.subItems.length = 0 then "Multiple" else toString i.subItems.length) ++ " ITEMS"
  else String.mk (i.category.data.map upperChar)

def displayItemOf (i : UAItem) : DisplayItem :=
  { title := i.title, link := i.link,
    releaseDate := i.extractedDate.map dayNumOf,
    date := i.extractedDate.map dayNumOf,
    text := i.title, severity := "medium", language := "Unknown",
    isRoundup := i.isRoundup, subItemsCount := i.subItems.length }

/-- The planner-category list used by the SECTIONS block (line 849). -/
def plannerCats6 : List String :=
  ["movies", "festivals", "events", "sports", "shopping", "civic"]

/-- The section-population block (lines 843–893).  `none` = the item is
dropped entirely (an early `return`); `some none` = no section entry but
processing continues; `some (some e)` = push `e`.  `diffDays < -3` is the
exact `ed - todayMs < -3 * dayMs`. -/
def sectionDecision (now : Int) (i : UAItem) : Option (Option (String × DisplayItem)) :=
  let todayMs := dayNumOf now * dayMs
  if sectionCats.contains i.category then
    if plannerCats6.contains i.category && i.extractedDate.isNone && !i.isRoundup then
      none
    else if i.category == "festivals" && i.extractedDate.isSome then
      match i.extractedDate with
      | some ed =>
          if ed - todayMs < -3 * dayMs then none
          else some (some (i.category, displayItemOf i))
      | none => some (some (i.category, displayItemOf i))
    else if plannerCats6.contains i.category && i.extractedDate.isSome then
      match i.extractedDate with
      | some ed =>
          if ed < todayMs then none
          else some (some (i.category, displayItemOf i))
      | none => some (some (i.category, displayItemOf i))
    else some (some (i.category, displayItemOf i))
  else some none

structure TlEntry where
  key : Int
  label : String
  item : TlMid
deriving DecidableEq, Repr

/-- The resolved target date of an item (lines 896–909): the extracted
date, else today for a fresh (<24h) alert/weather alert, else today for a
roundup, else nothing. -/
def resolvedTargetDate (now : Int) (i : UAItem) : Option Int :=
  let todayMs := dayNumOf now * dayMs
  let t0 := i.extractedDate
  let t1 :=
    if t0.isNone && (i.category == "alerts" || i.category == "weather_alerts")
        && (match i.pubDate with
            | some p => decide (now - p < 24 * hourMs)
            | none => false) then
      some todayMs
    else t0
  if t1.isNone && i.isRoundup then some todayMs else t1

/-- Timeline bucketing (lines 895–937): the resolved target date is kept
only when it is on or after today's midnight.  The timeline item reads
`item._forwardScore || 0`, which is the score just assigned at line 841,
i.e. `fsv`. -/
def timelineEntryFor (now : Int) (i : UAItem) (fsv : Nat) : Option TlEntry :=
  let todayMs := dayNumOf now * dayMs
  match resolvedTargetDate now i with
  | some t =>
      if todayMs ≤ t then
        some { key := dayNumOf t, label := getDayLabel now t,
               item := { id := i.id, type := getItemType i.category, title := i.title,
                         subtitle := subtitleOf i, description := i.description,
                         tags := [i.category], link := i.link, isRoundup := i.isRoundup,
                         subItems := i.subItems, fsv := fsv } }
      else none
  | none => none

/-- The contributions of one item after the batch `id`-dedup: the drop
gates in source order, the `_forwardScore` assignment (`fsSet`, line 841),
the section entry, and the timeline entry.  Only non-`fs` fields of the
item are read. -/
structure ItemRes where
  sec : Option (String × DisplayItem)
  tl : Option TlEntry
  fsSet : Option Nat
deriving DecidableEq, Repr

def processItemRes (s : UASettings) (now : Int) (i : UAItem) : ItemRes :=
  if !freshGate i.pubDate i.category s now then ⟨none, none, none⟩
  else if staleDrop (fullTextOf i) then ⟨none, none, none⟩
  else if !roundupText (fullTextOf i) && anyNegative s (fullTextOf i) then ⟨none, none, none⟩
  else if layer3Drop s (fullTextOf i) i.category (forwardScoreOf (fullTextOf i)) then
    ⟨none, none, none⟩
  else if locationDrop s (fullTextOf i) i.category then ⟨none, none, none⟩
  else
    match sectionDecision now i with
    | none => ⟨none, none, some (forwardScoreOf (fullTextOf i))⟩
    | some secE =>
        ⟨secE, timelineEntryFor now i (forwardScoreOf (fullTextOf i)),
         some (forwardScoreOf (fullTextOf i))⟩

/-- `item._forwardScore = forwardScore` applied to the object. -/
def applyFs (i : UAItem) (r : ItemRes) : UAItem :=
  match r.fsSet with
  | some n => { i with fs := some n }
  | none => i

/-- Aggregation state of the `forEach` loop. -/
structure UAState where
  seen : List String
  sections : List (String × List DisplayItem)
  tmap : List (Int × String × List TlMid)
deriving DecidableEq, Repr

def pushSection (secs : List (String × List DisplayItem)) (cat : String)
    (d : DisplayItem) : List (String × List DisplayItem) :=
  secs.map (fun p => if p.1 == cat then (p.1, p.2 ++ [d]) else p)

/-- `timelineMap` update: append to an existing day bucket, else create it
at the end (JS `Map` insertion order). -/
def pushTimeline (tmap : List (Int × String × List TlMid)) (e : TlEntry) :
    List (Int × String × List TlMid) :=
  if tmap.any (fun b => b.1 == e.key) then
    tmap.map (fun b => if b.1 == e.key then (b.1, b.2.1, b.2.2 ++ [e.item]) else b)
  else tmap ++ [(e.key, e.label, [e.item])]

/-- One `forEach` iteration, state part. -/
def uaStepSt (s : UASettings) (now : Int) (st : UAState) (item : UAItem) : UAState :=
  if st.seen.contains item.id then st
  else
    let st1 : UAState := { st with seen := item.id :: st.seen }
    let r := processItemRes s now item
    let st2 : UAState :=
      match r.sec with
      | some sd => { st1 with sections := pushSection st1.sections sd.1 sd.2 }
      | none => st1
    match r.tl with
    | some te => { st2 with tmap := pushTimeline st2.tmap te }
    | none => st2

def uaRunSt (s : UASettings) (now : Int) : UAState → List UAItem → UAState
  | st, [] => st
  | st, i :: rest => uaRunSt s now (uaStepSt s now st i) rest

/-- The post-run state of the input array's items: duplicates and items
dropped before line 841 are untouched; processed items carry the assigned
`_forwardScore`. -/
def uaRunOut (s : UASettings) (now : Int) : UAState → List UAItem → List UAItem
  | _, [] => []
  | st, i :: rest =>
    (if st.seen.contains i.id then i else applyFs i (processItemRes s now i)) ::
      uaRunOut s now (uaStepSt s now st i) rest

/-- Stable insertion sort, modeling `Array.prototype.sort` (which is stable
per the ECMAScript spec; a stable sort under a total preorder is unique, so
any stable algorithm yields the same list).  `le x y` means "x may precede
y", i.e. `comparator(x, y) <= 0`. -/
def insertStable (le : α → α → Bool) (x : α) : List α → List α
  | [] => [x]
  | y :: ys => if le x y then x :: y :: ys else y :: insertStable le x ys

def sortStable (le : α → α → Bool) : List α → List α
  | [] => []
  | x :: xs => insertStable le x (sortStable le xs)

def stripFs (m : TlMid) : TimelineItemOut :=
  { id := m.id, type := m.type, title := m.title, subtitle := m.subtitle,
    description := m.description, tags := m.tags, link := m.link,
    isRoundup := m.isRoundup, subItems := m.subItems }

/-- Batch finalization (lines 940–961): sort days ascending by key, sort
items within a day descending by score (stably), strip the score, cap the
sections at 5, derive the weekly plan over the next 7 days. -/
def finalizeUA (st : UAState) (now : Int) : UAOutput :=
  let sortedDays := sortStable (fun a b => decide (a.1 ≤ b.1)) st.tmap
  let timeline := sortedDays.map (fun b =>
    { date := b.1, dayLabel := b.2.1,
      items := (sortStable (fun x y => decide (y.fsv ≤ x.fsv)) b.2.2).map stripFs
      : TimelineDayOut })
  let sections := st.sections.map (fun p => (p.1, p.2.take 5))
  let todayKey := dayNumOf now
  let weekly := (List.range 7).map (fun iNat =>
    let d := todayKey + iNat
    let dayName := weekdayLongName d
    match timeline.find? (fun t => t.date == d) with
    | some td =>
        if td.items.length > 0 then
          (dayName, td.items.map (fun it =>
            { title := it.title, type := it.type,
              icon := getCategoryIcon it.type, link := it.link : PlanItem }))
        else (dayName, [])
    | none => (dayName, []))
  { timeline := timeline, sections := sections, weekly_plan := weekly,
    lastUpdated := now }

def initUAState : UAState :=
  { seen := [], sections := sectionCats.map (fun c => (c, [])), tmap := [] }

/-- `processUpAheadData(rawItems, settings)` at a frozen clock `now`: the
returned output together with the post-run state of the input items (the
source mutates them in place via `_forwardScore`). -/
def processUpAheadData (rawItems : List UAItem) (s : UASettings) (now : Int) :
    UAOutput × List UAItem :=
  (finalizeUA (uaRunSt s now initUAState rawItems) now,
   uaRunOut s now initUAState rawItems)

/-- `{ i with fs := none }`: the item without its `_forwardScore` expando. -/
def eraseFs (i : UAItem) : UAItem := { i with fs := none }

/-! ### Concrete fixtures used by the claims -/

/-- Settings with the default `hideOlderThanHours` of 60 and no user
keywords or locations. -/
def settings60 : UASettings :=
  { hideOlderThanHours := some 60, keywords := [], locations := none }

/-- Reference date 2026-01-10 (midnight) from the spec's examples. -/
def refC3 : Int := jsDate 2026 0 10

/-- A late-year reference date, 2026-12-10, exercising the roll-forward. -/
def refDec : Int := jsDate 2026 11 10

def pItemA : PItem :=
  { id := "a", title := "City Concert This Weekend", category := "events",
    link := "la", addedAt := 0 }

def pItemB : PItem :=
  { id := "b", title := "City Concert this Weekend!!", category := "events",
    link := "lb", addedAt := 0 }

/-- Same word set as `pItemA` (double space), Jaccard similarity 1. -/
def pItemC : PItem :=
  { id := "c", title := "City  Concert This Weekend", category := "events",
    link := "lc", addedAt := 0 }

/-- Same `id` as `pItemA`, unrelated title. -/
def pItemA2 : PItem :=
  { id := "a", title := "totally different words", category := "events",
    link := "ld", addedAt := 0 }

/-- A movies item whose text contains the negative keyword "review". -/
def uaItemHarsh : UAItem :=
  { id := "h1", title := "this movie review is harsh", description := "",
    link := "lh", pubDate := some 0, extractedDate := some 0,
    category := "movies", isRoundup := false, subItems := [], fs := none }

/-- A movies item whose text contains "preview" but not `\breview\b`. -/
def uaItemPreview : UAItem :=
  { id := "p1", title := "preview screening announced", description := "",
    link := "lp", pubDate := some 0, extractedDate := some 0,
    category := "movies", isRoundup := false, subItems := [], fs := none }

/-- Title lacks the roundup co-occurrence; the description completes it. -/
def uaItemC7 : UAItem :=
  { id := "c7", title := "movie review", description := "12 new releases",
    link := "lc7", pubDate := some 0, extractedDate := some 0,
    category := "general", isRoundup := false, subItems := [], fs := none }

/-- Roundup co-occurrence in the title itself, plus a negative keyword. -/
def uaItemRoundup : UAItem :=
  { id := "r1", title := "12 new releases this week", description := "review roundup",
    link := "lr", pubDate := some 0, extractedDate := some 0,
    category := "general", isRoundup := true, subItems := [], fs := none }

/-- A benign item that lands in today's timeline bucket. -/
def uaItemGathering : UAItem :=
  { id := "g1", title := "hello gathering", description := "",
    link := "lg", pubDate := some 0, extractedDate := some 0,
    category := "general", isRoundup := false, subItems := [], fs := none }

/-- An item whose resolved target date is strictly before today. -/
def uaItemPast : UAItem :=
  { id := "g2", title := "hello gathering", description := "",
    link := "lg", pubDate := some 0, extractedDate := some (-dayMs),
    category := "general", isRoundup := false, subItems := [], fs := none }

/-- The timeline day produced by `uaItemGathering` at clock 0. -/
def uaDayG : TimelineDayOut :=
  { date := 0, dayLabel := "Today",
    items := [{ id := "g1", type := "event", title := "hello gathering",
                subtitle := "GENERAL", description := "", tags := ["general"],
                link := "lg", isRoundup := false, subItems := [] }] }

/-!
## Theorems

First the generic lemmas shared by several claims, then one theorem (plus
counterexample / witness where applicable) per claim.
-/

theorem mem_insertStable (le : α → α → Bool) (x a : α) (l : List α) :
    a ∈ insertStable le x l ↔ a = x ∨ a ∈ l := by
  induction l with
  | nil => simp [insertStable]
  | cons y ys ih =>
    simp only [insertStable]
    split
    · simp [List.mem_cons]
    · simp only [List.mem_cons, ih]
      tauto

theorem mem_sortStable (le : α → α → Bool) (a : α) (l : List α) :
    a ∈ sortStable le l ↔ a ∈ l := by
  induction l with
  | nil => simp [sortStable]
  | cons x xs ih => simp [sortStable, mem_insertStable, ih]

/-! ### Planner-store key lemmas (claim C8) -/

theorem prunePlanner_not_lt (cutoffKey : String) (data : PlannerStore) :
    ∀ kv ∈ prunePlanner cutoffKey data, strLtJS kv.1.data cutoffKey.data = false := by
  intro kv hkv
  have h := List.of_mem_filter hkv
  simpa using h

theorem pushAt_keys (data : PlannerStore) (key : String) (it : PItem) :
    ∀ kv ∈ pushAt data key it, ∃ kv0 ∈ data, kv.1 = kv0.1 := by
  intro kv hkv
  rw [pushAt, List.mem_map] at hkv
  obtain ⟨kv0, h0, rfl⟩ := hkv
  refine ⟨kv0, h0, ?_⟩
  split <;> rfl

theorem mergeItemsAt_keys (now : Int) (key : String) :
    ∀ (items : List PItem) (data : PlannerStore) (kv),
      kv ∈ mergeItemsAt now data key items → ∃ kv0 ∈ data, kv.1 = kv0.1 := by
  intro items
  induction items with
  | nil => intro data kv h; exact ⟨kv, h, rfl⟩
  | cons it rest ih =>
    intro data kv h
    simp only [mergeItemsAt] at h
    by_cases hd : isDuplicate (plannerGetDay data key) it = true
    · rw [if_pos hd] at h
      exact ih data kv h
    · rw [if_neg hd] at h
      obtain ⟨kv1, h1, he⟩ := ih _ kv h
      obtain ⟨kv0, h0, he2⟩ := pushAt_keys data key _ kv1 h1
      exact ⟨kv0, h0, he.trans he2⟩

theorem ensureKey_keys (data : PlannerStore) (key : String) :
    ∀ kv ∈ ensureKey data key, kv ∈ data ∨ kv.1 = key := by
  intro kv h
  rw [ensureKey] at h
  split at h
  · exact Or.inl h
  · rcases List.mem_append.mp h with h1 | h2
    · exact Or.inl h1
    · rw [List.mem_singleton] at h2
      exact Or.inr (by rw [h2])

theorem mergeKeys_keys (now : Int) (items : List PItem) :
    ∀ (dateKeys : List String) (data : PlannerStore) (kv),
      kv ∈ mergeKeys now data dateKeys items →
      (∃ kv0 ∈ data, kv.1 = kv0.1) ∨ kv.1 ∈ dateKeys := by
  intro dateKeys
  induction dateKeys with
  | nil => intro data kv h; exact Or.inl ⟨kv, h, rfl⟩
  | cons key rest ih =>
    intro data kv h
    simp only [mergeKeys] at h
    rcases ih _ kv h with ⟨kv1, h1, he⟩ | hk
    · obtain ⟨kv2, h2, he2⟩ := mergeItemsAt_keys now key items _ kv1 h1
      rcases ensureKey_keys data key kv2 h2 with h3 | h3
      · exact Or.inl ⟨kv2, h3, he.trans he2⟩
      · exact Or.inr (by rw [he, he2, h3]; exact List.mem_cons_self _ _)
    · exact Or.inr (List.mem_cons_of_mem _ hk)

/-! ### Claim C1 -/

/-- C1 (counterexample): on the text `"Feb 10 to Feb 24"` — the first range
form of the claim — `extractDate` does not return kind `range` with both
endpoints: the named layer matches `"Feb 10"` first and wins, yielding a
single `named` date with no `end`. -/
theorem c1_cex :
    (extractDate "Feb 10 to Feb 24" refC3).map (fun r => r.type) = some "named" ∧
    (extractDate "Feb 10 to Feb 24" refC3).map (fun r => r.type) ≠ some "range" ∧
    (extractDate "Feb 10 to Feb 24" refC3).map (fun r => r.endOpt) = some none := by
  decide

/-- C1 (amended): the range layer itself (`extractRange`) returns both
`start` and `end` with kind `range` on all three range forms, but inside
`extractDate` the named layer precedes it and matches the `<Month> D` /
`D <Month>` fragment first, so `extractDate` returns a single `named` date
on such texts (the range layer is unreachable through `extractDate`). -/
theorem c1_amended :
    extractDate "Feb 10 to Feb 24" refC3 = some ⟨jsDate 2026 1 10, none, "named"⟩ ∧
    extractDate "Feb 10 to 24" refC3 = some ⟨jsDate 2026 1 10, none, "named"⟩ ∧
    extractDate "10 to 24 February" refC3 = some ⟨jsDate 2026 1 24, none, "named"⟩ ∧
    extractRange "Feb 10 to Feb 24" refC3
      = some ⟨jsDate 2026 1 10, some (jsDate 2026 1 24), "range"⟩ ∧
    extractRange "Feb 10 to 24" refC3
      = some ⟨jsDate 2026 1 10, some (jsDate 2026 1 24), "range"⟩ ∧
    extractRange "10 to 24 February" refC3
      = some ⟨jsDate 2026 1 10, some (jsDate 2026 1 24), "range"⟩ := by
  decide

/-! ### Claim C2 -/

/-- C2 (counterexample): on `"sale ends Feb 12"` — a deadline anchor
followed by a named date — `extractDate` does not return the deadline
result: the named layer matches `"Feb 12"` first, so the kind is `named`
and `start` is the parsed date, not the reference date. -/
theorem c2_cex :
    (extractDate "sale ends Feb 12" refC3).map (fun r => r.type) = some "named" ∧
    (extractDate "sale ends Feb 12" refC3).map (fun r => r.type) ≠ some "deadline" ∧
    (extractDate "sale ends Feb 12" refC3).map (fun r => r.start) ≠ some refC3 := by
  decide

/-- C2 (amended): the deadline layer itself (`extractDeadline`) produces
`start = referenceDate`, `end = parsed date`, kind `deadline` for the
anchor texts, but inside `extractDate` the named layer (layer 2) always
matches the named-date part first, so `extractDate` returns a `named`
result on every such text (the deadline layer is unreachable through
`extractDate`). -/
theorem c2_amended :
    extractDate "sale ends Feb 12" refC3 = some ⟨jsDate 2026 1 12, none, "named"⟩ ∧
    extractDeadline "sale ends Feb 12" refC3
      = some ⟨refC3, some (jsDate 2026 1 12), "deadline"⟩ ∧
    extractDeadline "last date March 1" refC3
      = some ⟨refC3, some (jsDate 2026 2 1), "deadline"⟩ ∧
    extractDeadline "offer valid till Feb 28" refC3
      = some ⟨refC3, some (jsDate 2026 1 28), "deadline"⟩ := by
  decide

/-! ### Claim C3 -/

/-- C3 (counterexample): with reference date 2026-01-10, `extractDate` on
`"event on Dec 20"` returns year 2026, not the claimed 2025 — `inferYear`
never rolls backward; Dec 20 of the reference year lies in the future, so
no adjustment fires. -/
theorem c3_cex :
    (extractDate "event on Dec 20" refC3).map (fun r => yearOf r.start) = some 2026 ∧
    (extractDate "event on Dec 20" refC3).map (fun r => yearOf r.start) ≠ some 2025 := by
  decide

/-- C3 (amended): with reference date 2026-01-10, `"event on March 5"`
resolves to 2026 and `"event on Dec 20"` also resolves to 2026 (the rule
builds the date in the reference year and only rolls *forward* when the
result is more than 30 days in the past; it never rolls back to the
previous year).  The forward roll does fire when applicable: with
reference 2026-12-10, `"event on Jan 5"` resolves to 2027. -/
theorem c3_amended :
    (extractDate "event on March 5" refC3).map (fun r => yearOf r.start) = some 2026 ∧
    (extractDate "event on Dec 20" refC3).map (fun r => yearOf r.start) = some 2026 ∧
    (extractDate "event on Jan 5" refDec).map (fun r => yearOf r.start) = some 2027 ∧
    inferYear 11 20 refC3 = jsDate 2026 11 20 ∧
    inferYear 0 5 refDec = setFullYearPlus1 (jsDate 2026 0 5) := by
  decide

/-! ### Claim C4 -/

/-- C4: single-word negative keywords are matched with word-boundary
anchoring and multi-word phrases by substring: `"preview screening
announced"` is not matched by the `"review"` keyword (and passes the whole
negative filter, reaching the timeline), while `"this movie review is
harsh"` is matched and dropped by the negative filter (the item yields no
output at all). -/
theorem c4_thm :
    matchesKeyword (lowerS "preview screening announced") "review" = false ∧
    matchesKeyword (lowerS "this movie review is harsh") "review" = true ∧
    (!roundupText (lowerS "this movie review is harsh") &&
        anyNegative settings60 (lowerS "this movie review is harsh")) = true ∧
    (!roundupText (lowerS "preview screening announced") &&
        anyNegative settings60 (lowerS "preview screening announced")) = false ∧
    processItemRes settings60 0 uaItemHarsh = ⟨none, none, none⟩ ∧
    (processUpAheadData [uaItemPreview] settings60 0).1.timeline.length = 1 := by
  decide

/-! ### Claim C5 -/

theorem freshGate_some_override (p : Int) (cat : String) (s : UASettings) (now h : Int)
    (hcat : CATEGORY_MAX_AGE_HOURS cat = some h) :
    freshGate (some p) cat s now = true ↔ now - p ≤ min (maxAgeMsOf s) (h * hourMs) := by
  simp [freshGate, hcat, Int.not_lt]

theorem freshGate_some_default (p : Int) (cat : String) (s : UASettings) (now : Int)
    (hcat : CATEGORY_MAX_AGE_HOURS cat = none) :
    freshGate (some p) cat s now = true ↔ now - p ≤ maxAgeMsOf s := by
  simp [freshGate, hcat, Int.not_lt]

/-- C5: the freshness gate drops every item with a missing/invalid publish
timestamp; otherwise an item is kept exactly when its age does not exceed
`min(configured maxAgeHours, category override)`, the overrides being
weather_alerts = 6h, alerts = 12h, festivals = 336h, default 60h; in
particular a weather-alert 7 hours old is dropped under a global 60h
setting, and an alert 10 hours old survives. -/
theorem c5_thm :
    (∀ (cat : String) (s : UASettings) (now : Int), freshGate none cat s now = false) ∧
    (∀ (p : Int) (cat : String) (s : UASettings) (now h : Int),
        CATEGORY_MAX_AGE_HOURS cat = some h →
        (freshGate (some p) cat s now = true ↔ now - p ≤ min (maxAgeMsOf s) (h * hourMs))) ∧
    (∀ (p : Int) (cat : String) (s : UASettings) (now : Int),
        CATEGORY_MAX_AGE_HOURS cat = none →
        (freshGate (some p) cat s now = true ↔ now - p ≤ maxAgeMsOf s)) ∧
    CATEGORY_MAX_AGE_HOURS "weather_alerts" = some 6 ∧
    CATEGORY_MAX_AGE_HOURS "alerts" = some 12 ∧
    CATEGORY_MAX_AGE_HOURS "festivals" = some 336 ∧
    maxAgeMsOf { hideOlderThanHours := none, keywords := [], locations := none }
      = 60 * hourMs ∧
    (∀ now : Int, freshGate (some (now - 7 * hourMs)) "weather_alerts" settings60 now
      = false) ∧
    (∀ now : Int, freshGate (some (now - 10 * hourMs)) "alerts" settings60 now = true) := by
  refine ⟨fun _ _ _ => rfl, freshGate_some_override, freshGate_some_default, rfl, rfl,
    rfl, rfl, ?_, ?_⟩
  · intro now
    have h := freshGate_some_override (now - 7 * hourMs) "weather_alerts" settings60 now 6 rfl
    rw [show now - (now - 7 * hourMs) = 7 * hourMs by ring] at h
    have hn : ¬(7 * hourMs ≤ min (maxAgeMsOf settings60) (6 * hourMs)) := by decide
    exact Bool.eq_false_iff.mpr (fun ht => hn (h.mp ht))
  · intro now
    have h := freshGate_some_override (now - 10 * hourMs) "alerts" settings60 now 12 rfl
    rw [show now - (now - 10 * hourMs) = 10 * hourMs by ring] at h
    exact h.mpr (by decide)

/-- C5 (witness): the general statements of `c5_thm` instantiated at
concrete inputs. -/
theorem c5_witness :
    freshGate none "movies" settings60 0 = false ∧
    (freshGate (some 0) "weather_alerts" settings60 (7 * hourMs) = true ↔
      7 * hourMs - 0 ≤ min (maxAgeMsOf settings60) (6 * hourMs)) ∧
    (freshGate (some 0) "general" settings60 (7 * hourMs) = true ↔
      7 * hourMs - 0 ≤ maxAgeMsOf settings60) ∧
    freshGate (some (0 - 7 * hourMs)) "weather_alerts" settings60 0 = false ∧
    freshGate (some (0 - 10 * hourMs)) "alerts" settings60 0 = true := by
  obtain ⟨h1, h2, h3, _, _, _, _, h8, h9⟩ := c5_thm
  exact ⟨h1 "movies" settings60 0, h2 0 "weather_alerts" settings60 (7 * hourMs) 6 rfl,
         h3 0 "general" settings60 (7 * hourMs) rfl, h8 0, h9 0⟩

/-! ### Claim C6 -/

/-- C6 (counterexample): the two spec titles tokenize to word sets
differing in `weekend` vs `weekend!!` (split is on whitespace only), so
their Jaccard similarity is 3/5 = 0.6, not above 0.7 — with distinct ids
they are *not* deduplicated, and merging both into one day stores two
records. -/
theorem c6_cex :
    simParts "City Concert This Weekend" "City Concert this Weekend!!" = (3, 5) ∧
    simGT07 "City Concert This Weekend" "City Concert this Weekend!!" = false ∧
    isDuplicate [{ pItemA with addedAt := 7 }] pItemB = false ∧
    (plannerGetDay (plannerMerge "2026-10-04" 7 [] ["2026-10-15"] [pItemA, pItemB])
      "2026-10-15").length = 2 := by
  decide

/-- C6 (amended): merge does deduplicate by id equality or word-set Jaccard
similarity strictly above 0.7 — a pair with identical word sets
(similarity 1) and a pair sharing an id each merge to a single record —
but the spec's example pair has similarity 3/5 ≤ 0.7 (the token
`weekend!!` differs from `weekend`), so it produces two records. -/
theorem c6_amended :
    (plannerGetDay (plannerMerge "2026-10-04" 7 [] ["2026-10-15"] [pItemA, pItemC])
      "2026-10-15").length = 1 ∧
    (plannerGetDay (plannerMerge "2026-10-04" 7 [] ["2026-10-15"] [pItemA, pItemA2])
      "2026-10-15").length = 1 ∧
    simParts "City Concert This Weekend" "City  Concert This Weekend" = (4, 4) ∧
    simGT07 "City Concert This Weekend" "City  Concert This Weekend" = true ∧
    (plannerGetDay (plannerMerge "2026-10-04" 7 [] ["2026-10-15"] [pItemA, pItemB])
      "2026-10-15").length = 2 := by
  decide

/-! ### Claim C8 -/

/-- C8 (counterexample): `merge` prunes only the previously stored entries
and then inserts under whatever day keys it is given — merging under the
stale key `"2018-01-01"` with cutoff key `"2026-10-04"` (the ISO key of
current date 2026-10-11 minus 7 days) leaves a stored entry more than 7
days old, so the pruning invariant does not hold after every merge. -/
theorem c8_cex :
    (plannerMerge "2026-10-04" 7 [] ["2018-01-01"] [pItemA]).any
      (fun kv => strLtJS kv.1.data "2026-10-04".data) = true := by
  decide

/-- C8 (amended): after `getAll` no stored entry remains whose day key is
below the cutoff (i.e. more than 7 days before the current date), and
after `merge` any remaining entry below the cutoff lies under one of the
day keys passed to that merge (the prune removes only entries present at
load time); `getDay` is a plain read that never prunes. -/
theorem c8_amended (cutoffKey : String) (data : PlannerStore) :
    (∀ kv ∈ plannerGetAll cutoffKey data, strLtJS kv.1.data cutoffKey.data = false) ∧
    (∀ (now : Int) (dateKeys : List String) (items : List PItem),
        ∀ kv ∈ plannerMerge cutoffKey now data dateKeys items,
          strLtJS kv.1.data cutoffKey.data = false ∨ kv.1 ∈ dateKeys) := by
  constructor
  · exact prunePlanner_not_lt cutoffKey data
  · intro now dateKeys items kv h
    rcases mergeKeys_keys now items dateKeys _ kv h with ⟨kv0, h0, he⟩ | hk
    · exact Or.inl (by rw [he]; exact prunePlanner_not_lt cutoffKey data kv0 h0)
    · exact Or.inr hk

/-- C8 (witness): `c8_amended` applied to a concrete store with one fresh
and one stale entry, and to the counterexample merge. -/
theorem c8_witness :
    strLtJS (("2026-10-10", ([] : List PItem))).1.data "2026-10-04".data = false ∧
    (strLtJS (("2018-01-01", [{ pItemA with addedAt := 7 }]) : String × List PItem).1.data
        "2026-10-04".data = false
      ∨ (("2018-01-01", [{ pItemA with addedAt := 7 }]) : String × List PItem).1
          ∈ ["2018-01-01"]) := by
  refine ⟨(c8_amended "2026-10-04" [("2026-10-10", []), ("2018-01-01", [])]).1 _ ?_,
          (c8_amended "2026-10-04" []).2 7 ["2018-01-01"] [pItemA] _ ?_⟩
  · decide
  · decide

/-! ### Aggregator run lemmas (claims C7, C9, C10) -/

/-- `processItemRes` never reads the `_forwardScore` expando of its input:
the gates and contributions depend only on the other fields. -/
theorem processItemRes_fs_irrel (s : UASettings) (now : Int) (i : UAItem) (v : Option Nat) :
    processItemRes s now { i with fs := v } = processItemRes s now i := by
  cases i; rfl

theorem eraseFs_applyFs (i : UAItem) (r : ItemRes) :
    eraseFs (applyFs i r) = eraseFs i := by
  cases r with
  | mk sec tl fsSet => cases fsSet <;> rfl

theorem eraseFs_fields {u i : UAItem} (h : eraseFs u = eraseFs i) :
    u = { i with fs := u.fs } := by
  cases u
  cases i
  simp only [eraseFs, UAItem.mk.injEq] at h ⊢
  simp_all

theorem processItemRes_congr (s : UASettings) (now : Int) {u i : UAItem}
    (h : eraseFs u = eraseFs i) :
    processItemRes s now u = processItemRes s now i := by
  rw [eraseFs_fields h]
  exact processItemRes_fs_irrel s now i u.fs

theorem eraseFs_id_eq {u i : UAItem} (h : eraseFs u = eraseFs i) : u.id = i.id := by
  rw [eraseFs_fields h]

theorem uaStepSt_congr (s : UASettings) (now : Int) (st : UAState) {u i : UAItem}
    (h : eraseFs u = eraseFs i) :
    uaStepSt s now st u = uaStepSt s now st i := by
  simp only [uaStepSt, eraseFs_id_eq h, processItemRes_congr s now h]

theorem uaRunSt_congr (s : UASettings) (now : Int) :
    ∀ (l1 l2 : List UAItem) (st : UAState),
      l1.map eraseFs = l2.map eraseFs → uaRunSt s now st l1 = uaRunSt s now st l2 := by
  intro l1
  induction l1 with
  | nil =>
    intro l2 st h
    cases l2 with
    | nil => rfl
    | cons b t => simp at h
  | cons a t ih =>
    intro l2 st h
    cases l2 with
    | nil => simp at h
    | cons b t2 =>
      simp only [List.map_cons, List.cons.injEq] at h
      simp only [uaRunSt]
      rw [uaStepSt_congr s now st h.1.symm]
      exact ih t2 _ h.2

theorem uaRunOut_eraseFs (s : UASettings) (now : Int) :
    ∀ (l : List UAItem) (st : UAState),
      (uaRunOut s now st l).map eraseFs = l.map eraseFs := by
  intro l
  induction l with
  | nil => intro st; rfl
  | cons a t ih =>
    intro st
    simp only [uaRunOut, List.map_cons, List.cons.injEq]
    constructor
    · split
      · rfl
      · exact eraseFs_applyFs a _
    · exact ih _

/-- The timeline-map component of one loop iteration. -/
theorem uaStepSt_tmap (s : UASettings) (now : Int) (st : UAState) (i : UAItem) :
    (uaStepSt s now st i).tmap =
      if st.seen.contains i.id then st.tmap
      else
        match (processItemRes s now i).tl with
        | some te => pushTimeline st.tmap te
        | none => st.tmap := by
  unfold uaStepSt
  split
  · simp_all
  · cases h : (processItemRes s now i).sec <;> cases h2 : (processItemRes s now i).tl <;>
      simp_all

theorem pushTimeline_keys {K : Int → Prop} {tmap : List (Int × String × List TlMid)}
    {e : TlEntry} (h : ∀ b ∈ tmap, K b.1) (he : K e.key) :
    ∀ b ∈ pushTimeline tmap e, K b.1 := by
  intro b hb
  rw [pushTimeline] at hb
  split at hb
  · rw [List.mem_map] at hb
    obtain ⟨b0, hb0, rfl⟩ := hb
    have hK := h b0 hb0
    split
    · exact hK
    · exact hK
  · rcases List.mem_append.mp hb with h1 | h2
    · exact h b h1
    · rw [List.mem_singleton] at h2
      subst h2
      exact he

theorem pushTimeline_items {P : TlMid → Prop} {tmap : List (Int × String × List TlMid)}
    {e : TlEntry} (h : ∀ b ∈ tmap, ∀ m ∈ b.2.2, P m) (he : P e.item) :
    ∀ b ∈ pushTimeline tmap e, ∀ m ∈ b.2.2, P m := by
  intro b hb m hm
  rw [pushTimeline] at hb
  split at hb
  · rw [List.mem_map] at hb
    obtain ⟨b0, hb0, rfl⟩ := hb
    by_cases hc : (b0.1 == e.key) = true
    · rw [if_pos hc] at hm
      rcases List.mem_append.mp hm with h1 | h2
      · exact h b0 hb0 m h1
      · rw [List.mem_singleton] at h2
        subst h2
        exact he
    · rw [if_neg hc] at hm
      exact h b0 hb0 m hm
  · rcases List.mem_append.mp hb with h1 | h2
    · exact h b h1 m hm
    · rw [List.mem_singleton] at h2
      subst h2
      simp only [List.mem_singleton] at hm
      subst hm
      exact he

/-- Any timeline bucket produced by a run satisfies an invariant that holds
for every per-item timeline entry. -/
theorem uaRunSt_tmap_inv (s : UASettings) (now : Int) (P : TlMid → Prop) (K : Int → Prop)
    (hP : ∀ (i : UAItem) (te : TlEntry),
        (processItemRes s now i).tl = some te → P te.item ∧ K te.key) :
    ∀ (l : List UAItem) (st : UAState),
      (∀ b ∈ st.tmap, K b.1) → (∀ b ∈ st.tmap, ∀ m ∈ b.2.2, P m) →
      (∀ b ∈ (uaRunSt s now st l).tmap, K b.1) ∧
      (∀ b ∈ (uaRunSt s now st l).tmap, ∀ m ∈ b.2.2, P m) := by
  intro l
  induction l with
  | nil => intro st hK hI; exact ⟨hK, hI⟩
  | cons i rest ih =>
    intro st hK hI
    refine ih (uaStepSt s now st i) ?_ ?_
    · rw [uaStepSt_tmap]
      split
      · exact hK
      · split
        · rename_i te hte
          exact pushTimeline_keys hK (hP i te hte).2
        · exact hK
    · rw [uaStepSt_tmap]
      split
      · exact hI
      · split
        · rename_i te hte
          exact pushTimeline_items hI (hP i te hte).1
        · exact hI

/-- Facts about a surviving timeline entry: it is the `timelineEntryFor`
value at the item's forward score, and the item passed the negative layer
(a negative match forces the roundup co-occurrence over the full text). -/
theorem processItemRes_tl (s : UASettings) (now : Int) (i : UAItem) (te : TlEntry)
    (h : (processItemRes s now i).tl = some te) :
    timelineEntryFor now i (forwardScoreOf (fullTextOf i)) = some te ∧
    (roundupText (fullTextOf i) = false → anyNegative s (fullTextOf i) = false) := by
  unfold processItemRes at h
  split at h
  · simp at h
  · split at h
    · simp at h
    · split at h
      · simp at h
      · rename_i hneg
        split at h
        · simp at h
        · split at h
          · simp at h
          · split at h
            · simp at h
            · rename_i secE hsec
              refine ⟨h, ?_⟩
              intro hr
              simp only [hr, Bool.not_false, Bool.true_and] at hneg
              exact Bool.eq_false_iff.mpr hneg

theorem timelineEntryFor_key_ge (now : Int) (i : UAItem) (fsv : Nat) (te : TlEntry)
    (h : timelineEntryFor now i fsv = some te) : dayNumOf now ≤ te.key := by
  simp only [timelineEntryFor] at h
  split at h
  · rename_i t ht
    split at h
    · rename_i hle
      injection h with h'
      subst h'
      show dayNumOf now ≤ dayNumOf t
      exact (Int.le_ediv_iff_mul_le (by decide)).mpr hle
    · simp at h
  · simp at h

theorem timelineEntryFor_item_fields (now : Int) (i : UAItem) (fsv : Nat) (te : TlEntry)
    (h : timelineEntryFor now i fsv = some te) :
    te.item.title = i.title ∧ te.item.description = i.description := by
  simp only [timelineEntryFor] at h
  split at h
  · split at h
    · injection h with h'
      subst h'
      exact ⟨rfl, rfl⟩
    · simp at h
  · simp at h

/-! ### Claim C9 -/

/-- C9: the Aggregator is idempotent over a batch under a frozen clock —
running `processUpAheadData` a second time on the very item objects the
first run left behind (including the `_forwardScore` expandos it wrote
onto them) reproduces the identical timeline, sections, and weekly plan.
The only state the first run mutates is that expando, and the computation
never reads it from its input. -/
theorem c9_thm (items : List UAItem) (s : UASettings) (now : Int) :
    (processUpAheadData (processUpAheadData items s now).2 s now).1.timeline
        = (processUpAheadData items s now).1.timeline ∧
    (processUpAheadData (processUpAheadData items s now).2 s now).1.sections
        = (processUpAheadData items s now).1.sections ∧
    (processUpAheadData (processUpAheadData items s now).2 s now).1.weekly_plan
        = (processUpAheadData items s now).1.weekly_plan := by
  have h : uaRunSt s now initUAState (uaRunOut s now initUAState items)
      = uaRunSt s now initUAState items :=
    uaRunSt_congr s now _ _ initUAState (uaRunOut_eraseFs s now items initUAState)
  simp only [processUpAheadData, h]
  exact ⟨trivial, trivial, trivial⟩

/-! ### Claim C10 -/

/-- C10: every timeline day in the Aggregator's output has a date key on
or after the run's current day, and an item whose resolved target date
falls strictly before today's midnight produces no timeline entry at all. -/
theorem c10_thm (items : List UAItem) (s : UASettings) (now : Int) :
    (∀ d ∈ (processUpAheadData items s now).1.timeline, dayNumOf now ≤ d.date) ∧
    (∀ (i : UAItem) (fsv : Nat) (t : Int),
        resolvedTargetDate now i = some t → t < dayNumOf now * dayMs →
        timelineEntryFor now i fsv = none) := by
  constructor
  · intro d hd
    have hrun := (uaRunSt_tmap_inv s now (fun _ => True) (fun k => dayNumOf now ≤ k)
        (fun i te h => ⟨trivial,
          timelineEntryFor_key_ge now i (forwardScoreOf (fullTextOf i)) te
            (processItemRes_tl s now i te h).1⟩)
        items initUAState (by simp [initUAState]) (by simp [initUAState])).1
    simp only [processUpAheadData, finalizeUA, List.mem_map] at hd
    obtain ⟨b, hb, rfl⟩ := hd
    rw [mem_sortStable] at hb
    exact hrun b hb
  · intro i fsv t ht hlt
    simp only [timelineEntryFor, ht]
    rw [if_neg (Int.not_le.mpr hlt)]

/-- C10 (witness): `c10_thm` at a concrete batch whose single item lands
in today's bucket, and at a concrete item whose resolved target date is
yesterday. -/
theorem c10_witness :
    dayNumOf 0 ≤ uaDayG.date ∧ timelineEntryFor 0 uaItemPast 0 = none := by
  refine ⟨(c10_thm [uaItemGathering] settings60 0).1 uaDayG ?_,
          (c10_thm [] settings60 0).2 uaItemPast 0 (-dayMs) ?_ ?_⟩
  · decide
  · decide
  · decide

/-! ### Claim C7 -/

/-- C7 (counterexample): the item titled `"movie review"` with description
`"12 new releases"` matches the negative keyword `"review"` and its title
alone fails the roundup co-occurrence, yet it is *not* dropped — the
exemption at line 808 tests the concatenated title+description, where the
description supplies the `"N new"`/`"releases"` co-occurrence — and the
item reaches the timeline. -/
theorem c7_cex :
    anyNegative settings60 (fullTextOf uaItemC7) = true ∧
    titleRoundup uaItemC7.title = false ∧
    roundupText (fullTextOf uaItemC7) = true ∧
    (processUpAheadData [uaItemC7] settings60 0).1.timeline.length = 1 := by
  decide

/-- C7 (amended): an item matching a negative keyword is exempted from the
negative-filter drop exactly when the co-occurrence pattern holds over the
concatenated title+description (not the title alone): a non-exempt match
yields no contributions at all, and every item reaching the output
timeline whose full text matches a negative keyword satisfies the
co-occurrence over that full text. -/
theorem c7_amended (items : List UAItem) (s : UASettings) (now : Int) :
    (∀ i : UAItem, roundupText (fullTextOf i) = false →
        anyNegative s (fullTextOf i) = true →
        processItemRes s now i = ⟨none, none, none⟩) ∧
    (∀ d ∈ (processUpAheadData items s now).1.timeline, ∀ it ∈ d.items,
        anyNegative s (lowerS (it.title ++ " " ++ it.description)) = true →
        roundupText (lowerS (it.title ++ " " ++ it.description)) = true) := by
  constructor
  · intro i hr hn
    unfold processItemRes
    split
    · rfl
    · split
      · rfl
      · rw [if_pos (by simp [hr, hn])]
  · intro d hd it hit
    have hrun := (uaRunSt_tmap_inv s now
        (fun m => anyNegative s (lowerS (m.title ++ " " ++ m.description)) = true →
            roundupText (lowerS (m.title ++ " " ++ m.description)) = true)
        (fun _ => True) ?_ items initUAState (by simp [initUAState])
        (by simp [initUAState])).2
    · simp only [processUpAheadData, finalizeUA, List.mem_map] at hd
      obtain ⟨b, hb, rfl⟩ := hd
      rw [mem_sortStable] at hb
      simp only [List.mem_map] at hit
      obtain ⟨m, hm, rfl⟩ := hit
      rw [mem_sortStable] at hm
      exact hrun b hb m hm
    · intro i te h
      obtain ⟨htl, himp⟩ := processItemRes_tl s now i te h
      obtain ⟨hti, hde⟩ := timelineEntryFor_item_fields now i _ te htl
      refine ⟨?_, trivial⟩
      intro hneg
      rw [hti, hde] at hneg ⊢
      by_contra hr
      simp only [fullTextOf] at himp
      have hn' := himp (Bool.eq_false_iff.mpr hr)
      rw [hn'] at hneg
      exact Bool.false_ne_true hneg

/-- C7 (witness): `c7_amended` applied concretely — a negative-matching
non-roundup item produces nothing, and the roundup item that did reach the
timeline satisfies the co-occurrence implication. -/
theorem c7_witness :
    processItemRes settings60 0 uaItemHarsh = ⟨(none : Option (String × DisplayItem)),
        (none : Option TlEntry), (none : Option Nat)⟩ ∧
    roundupText (lowerS ("12 new releases this week" ++ " " ++ "review roundup")) = true := by
  obtain ⟨h1, h2⟩ := c7_amended [uaItemRoundup] settings60 0
  refine ⟨h1 uaItemHarsh ?_ ?_, ?_⟩
  · decide
  · decide
  · refine h2 ⟨0, "Today",
      [{ id := "r1", type := "event", title := "12 new releases this week",
         subtitle := "Multiple ITEMS", description := "review roundup",
         tags := ["general"], link := "lr", isRoundup := true, subItems := [] }]⟩ ?_
      { id := "r1", type := "event", title := "12 new releases this week",
        subtitle := "Multiple ITEMS", description := "review roundup",
        tags := ["general"], link := "lr", isRoundup := true, subItems := [] } ?_ ?_
    · decide
    · decide
    · decide

end UpAhead
